import Mathlib

/-!
# QQ Connect client (`qq.go`): a shallow embedding

The Go package `qq` is a thin OAuth2 client: `LoginPage` builds the
authorization URL, `Auth` exchanges a code for a token, `OpenID` resolves the
identifiers behind a token and `Info` fetches the profile.

Conventions of the embedding

* A Go `string` or `[]byte` is a list of bytes (`Bytes`).
* A Go `error` is `Option GoError`, `none` being `nil`.
* What the package does not contain is explicit: the HTTP transport and
  `json.Unmarshal` are fields of a `World` the operations are run in, so that
  every statement holds for every transport and every JSON decoder.  The small
  pure functions of `net/url` that the code calls (`Values.Add`, `Values.Get`,
  `Values.Encode`, `QueryEscape`, `ParseQuery`) are embedded as definitions.
* A run of an operation yields the list of its external calls (`Event`) and
  either the returned values or a run-time panic (`Outcome`).
-/

namespace QQ

/-! ## Bytes and errors -/

/-- A Go `string` / `[]byte`: a finite sequence of bytes. -/
abbrev Bytes := List UInt8

/-- The bytes of a string literal of the source (its UTF-8 encoding). -/
def lit (s : String) : Bytes := s.data.flatMap String.utf8EncodeChar

/-- The `%d` verb of `fmt` on an `int64`: decimal digits, `-` in front of a
negative number. -/
def fmtInt (i : Int) : Bytes := lit (toString i)

/-- Go error values met by the package, by where they are made.  `wrapped e` is
what `errors.Wrapper` (package `rainbow/errors`) leaves in place of a non-nil
error `e`. -/
inductive GoError where
  | transport (msg : Bytes)
  | read (msg : Bytes)
  | escape (s : Bytes)
  | semicolon
  | json (msg : Bytes)
  | created (msg : Bytes)
  | errorf (msg : Bytes)
  | wrapped (e : GoError)
  deriving DecidableEq, Repr

/-- The call `errors.Wrapper(&err)`: a nil error stays nil (line 88 of `qq.go`
tests the error that `callbackDecoder` passed through it against nil), a
non-nil one is replaced by its wrapping. -/
def Wrapper : Option GoError → Option GoError
  | none => none
  | some e => some (GoError.wrapped e)

/-! ## `net/url` -/

/-- Go `url.Values`, a `map[string][]string`: keys are pairwise distinct. -/
structure Values where
  entries : List (Bytes × List Bytes)
  deriving DecidableEq, Repr

/-- The result of `make(url.Values)`. -/
def Values.empty : Values := ⟨[]⟩

/-- Appends `value` to the slice stored under `key` in the entry list. -/
def addEntry (key value : Bytes) : List (Bytes × List Bytes) → List (Bytes × List Bytes)
  | [] => [(key, [value])]
  | (k, vs) :: rest =>
    if k = key then (k, vs ++ [value]) :: rest else (k, vs) :: addEntry key value rest

/-- Go `Values.Add`: `v[key] = append(v[key], value)`. -/
def Values.Add (v : Values) (key value : Bytes) : Values := ⟨addEntry key value v.entries⟩

/-- Go `Values.Get`: the first value stored under `key`, the empty string when
there is none. -/
def Values.Get (v : Values) (key : Bytes) : Bytes :=
  match v.entries.lookup key with
  | some (x :: _) => x
  | _ => []

/-- Bytes that `QueryEscape` leaves alone: ASCII letters, digits and `-_.~`. -/
def unreserved (c : UInt8) : Bool :=
  (97 ≤ c && c ≤ 122) || (65 ≤ c && c ≤ 90) || (48 ≤ c && c ≤ 57) ||
    c == 45 || c == 95 || c == 46 || c == 126

/-- The digit `"0123456789ABCDEF"[n]` for a nibble `n`. -/
def upperhex (n : UInt8) : UInt8 := if n < 10 then 48 + n else 55 + n

/-- Go `url.QueryEscape`: a space becomes `+`, any other byte that is not
unreserved becomes `%XX` in upper-case hexadecimal. -/
def QueryEscape (s : Bytes) : Bytes :=
  s.flatMap fun c =>
    if unreserved c then [c]
    else if c = 32 then [43]
    else [37, upperhex (c / 16), upperhex (c % 16)]

/-- Go `ishex`. -/
def ishex (c : UInt8) : Bool :=
  (48 ≤ c && c ≤ 57) || (97 ≤ c && c ≤ 102) || (65 ≤ c && c ≤ 70)

/-- Go `unhex`. -/
def unhex (c : UInt8) : UInt8 :=
  if 48 ≤ c && c ≤ 57 then c - 48
  else if 97 ≤ c && c ≤ 102 then c - 97 + 10
  else if 65 ≤ c && c ≤ 70 then c - 65 + 10
  else 0

/-- Go `url.QueryUnescape`: `%XX` is decoded, `+` becomes a space; a `%` not
followed by two hexadecimal digits is an `EscapeError` quoting at most three
bytes from the `%` on. -/
def QueryUnescape : Bytes → Except GoError Bytes
  | [] => Except.ok []
  | 37 :: a :: b :: rest =>
    if ishex a && ishex b then
      match QueryUnescape rest with
      | Except.ok r => Except.ok ((unhex a * 16 + unhex b) :: r)
      | Except.error e => Except.error e
    else Except.error (GoError.escape [37, a, b])
  | [37, a] => Except.error (GoError.escape [37, a])
  | [37] => Except.error (GoError.escape [37])
  | c :: rest =>
    match QueryUnescape rest with
    | Except.ok r => Except.ok ((if c = 43 then 32 else c) :: r)
    | Except.error e => Except.error e

/-- The two behaviours of `url.ParseQuery` among Go releases: up to Go 1.16 a
semicolon separates pairs like an ampersand does; from Go 1.17 on only the
ampersand separates and a pair holding a semicolon is rejected. -/
inductive QuerySyntax where
  | semicolonSeparates
  | semicolonRejected
  deriving DecidableEq, Repr

/-- The pieces of `s` between the bytes satisfying `sep`. -/
def splitOn (sep : UInt8 → Bool) : Bytes → List Bytes
  | [] => [[]]
  | c :: cs =>
    if sep c then [] :: splitOn sep cs
    else
      match splitOn sep cs with
      | h :: t => (c :: h) :: t
      | [] => [[c]]

/-- Go `strings.Cut(s, "=")`: what is before the first `=` and what is after
it; all of `s` and the empty string when there is none. -/
def cutEq : Bytes → Bytes × Bytes
  | [] => ([], [])
  | c :: cs => if c = 61 then ([], cs) else ((c :: (cutEq cs).1), (cutEq cs).2)

/-- One turn of the loop of Go `parseQuery` on the piece `key`: an empty piece
is skipped; the piece is cut at its first `=`, both halves are unescaped and
the pair is added; an unescaping error is kept if it is the first error and the
piece is dropped.  With `semicolonRejected` a piece holding `;` sets the error
and is dropped. -/
def parsePair (syn : QuerySyntax) (st : Values × Option GoError) (key : Bytes) :
    Values × Option GoError :=
  if syn = QuerySyntax.semicolonRejected ∧ (59 : UInt8) ∈ key then (st.1, some GoError.semicolon)
  else if key = [] then st
  else
    match QueryUnescape (cutEq key).1 with
    | Except.error e1 => (st.1, if st.2 = none then some e1 else st.2)
    | Except.ok k =>
      match QueryUnescape (cutEq key).2 with
      | Except.error e1 => (st.1, if st.2 = none then some e1 else st.2)
      | Except.ok v => (st.1.Add k v, st.2)

/-- Go `url.ParseQuery`: the map of the pairs that parse and the first error
met (the loop takes the pieces of the query from left to right). -/
def ParseQuery (syn : QuerySyntax) (query : Bytes) : Values × Option GoError :=
  (splitOn (fun c => c = 38 || (syn = QuerySyntax.semicolonSeparates && c = 59)) query).foldl
    (parsePair syn) (Values.empty, none)

/-- Byte-wise lexicographic order of Go strings (`<` on `string`). -/
def bytesLt : Bytes → Bytes → Bool
  | [], [] => false
  | [], _ :: _ => true
  | _ :: _, [] => false
  | a :: as, b :: bs => a < b || (a == b && bytesLt as bs)

/-- Inserts a key in an ascending list of keys. -/
def insertKey (k : Bytes) : List Bytes → List Bytes
  | [] => [k]
  | x :: xs => if bytesLt x k then x :: insertKey k xs else k :: x :: xs

/-- Go `sort.Strings`, here on the pairwise distinct keys of a map. -/
def sortStrings : List Bytes → List Bytes
  | [] => []
  | k :: ks => insertKey k (sortStrings ks)

/-- The text `Values.Encode` writes for the key `k`: `k=v` for each of its
values, every one preceded by `&` (the leading `&` of the whole is dropped by
`Values.Encode`). -/
def encodeKey (v : Values) (k : Bytes) : Bytes :=
  ((v.entries.lookup k).getD []).flatMap fun x => 38 :: (QueryEscape k ++ 61 :: QueryEscape x)

/-- Go `Values.Encode`: keys in ascending order, `key=value` pairs joined by
`&`, keys and values query-escaped. -/
def Values.Encode (v : Values) : Bytes :=
  ((sortStrings (v.entries.map Prod.fst)).flatMap (encodeKey v)).drop 1

/-! ## The package -/

/-- Go `type Connect struct`. -/
structure Connect where
  appID : Bytes
  appKey : Bytes
  redirectURI : Bytes
  deriving DecidableEq, Repr

/-- Go `func New`. -/
def New (appID appKey redirectURI : Bytes) : Connect :=
  { appID := appID, appKey := appKey, redirectURI := redirectURI }

/-- Go `type errMsg struct`. -/
structure errMsg where
  Error : Int
  ErrorMsg : Bytes
  deriving DecidableEq, Repr

/-- The local `type response struct` of `OpenID`. -/
structure response where
  ClientID : Bytes
  OpenID : Bytes
  UnionID : Bytes
  deriving DecidableEq, Repr

/-- Go `type UserInfo struct`. -/
structure UserInfo where
  Ret : Int
  Msg : Bytes
  Nickname : Bytes
  FigType : Bytes
  Fig : Bytes
  Fig1 : Bytes
  Fig2 : Bytes
  FigQQ : Bytes
  FigQQ1 : Bytes
  FigQQ2 : Bytes
  Gender : Bytes
  GenderType : Int
  Province : Bytes
  City : Bytes
  Year : Bytes
  Constellation : Bytes
  IsYellowVIP : Bytes
  IsYellowYearVIP : Bytes
  YellowVIPLevel : Bytes
  VIP : Bytes
  Level : Bytes
  IsLost : Int
  deriving DecidableEq, Repr

/-- The zero value of `errMsg` (`new(errMsg)`). -/
def errMsg.zero : errMsg := ⟨0, []⟩

/-- The zero value of `response` (`new(response)`). -/
def response.zero : response := ⟨[], [], []⟩

/-- The zero value of `UserInfo` (the named result `res` of `Info`). -/
def UserInfo.zero : UserInfo :=
  ⟨0, [], [], [], [], [], [], [], [], [], [], 0, [], [], [], [], [], [], [], [], [], 0⟩

/-- What the package reads of a `*http.Response`: the two results of
`ioutil.ReadAll(resp.Body)`. -/
structure Response where
  body : Bytes
  readErr : Option GoError
  deriving DecidableEq, Repr

/-- Everything outside the package that a run depends on: the two results of
`http.Get` for each URL (a nil `*http.Response` is `none`), `json.Unmarshal`
for each of the three target types (from the bytes and the value the target
holds to the value it holds afterwards and the error), and which
`url.ParseQuery` the program is built with. -/
structure World where
  httpGet : Bytes → Option Response × Option GoError
  unmarshalErrMsg : Bytes → errMsg → errMsg × Option GoError
  unmarshalResponse : Bytes → response → response × Option GoError
  unmarshalUserInfo : Bytes → UserInfo → UserInfo × Option GoError
  querySyntax : QuerySyntax

/-- The external calls of a run, in the order they are made. -/
inductive Event where
  | print (text : Bytes)
  | httpGet (url : Bytes)
  | jsonUnmarshal (data : Bytes)
  deriving DecidableEq, Repr

/-- The two run-time panics the package can raise. -/
inductive Panic where
  | nilDereference
  | sliceBounds
  deriving DecidableEq, Repr

/-- How a call ends: it returns, or it panics. -/
inductive Outcome (α : Type) where
  | ret (a : α)
  | panic (p : Panic)
  deriving DecidableEq, Repr

/-- A run: the external calls made and how the call ended. -/
structure Run (α : Type) where
  events : List Event
  outcome : Outcome α
  deriving DecidableEq, Repr

/-- The Go slice expression `b[lo:hi]` on a slice whose capacity is its length
(what `ioutil.ReadAll` returned is not resliced before): `none` is the
"slice bounds out of range" panic. -/
def slice (b : Bytes) (lo hi : Int) : Option Bytes :=
  if 0 ≤ lo ∧ lo ≤ hi ∧ hi ≤ (b.length : Int) then some ((b.take hi.toNat).drop lo.toNat)
  else none

/-- Go `func callbackDecoder`: `json.Unmarshal(b[9:len(b)-3], &res)`, the error
passed through `errors.Wrapper`.  `unmarshal` is `json.Unmarshal` at the
dynamic type of `res`; the value `res` points to afterwards is returned with
the error. -/
def callbackDecoder {T : Type} (unmarshal : Bytes → T → T × Option GoError) (b : Bytes)
    (res : T) : Run (T × Option GoError) :=
  match slice b 9 ((b.length : Int) - 3) with
  | none => ⟨[], Outcome.panic Panic.sliceBounds⟩
  | some data =>
    ⟨[Event.jsonUnmarshal data],
      Outcome.ret ((unmarshal data res).1, Wrapper (unmarshal data res).2)⟩

/-- Go `func (conn *Connect) LoginPage`: `fmt.Sprintf` with three `%s`. -/
def Connect.LoginPage (conn : Connect) (state : Bytes) : Bytes :=
  lit "https://graph.qq.com/oauth2.0/authorize?response_type=code&client_id=" ++ conn.appID ++
    lit "&redirect_uri=" ++ conn.redirectURI ++ lit "&state=" ++ state

/-- The `url.Values` that `Auth` builds with its five `params.Add`. -/
def authParams (conn : Connect) (code : Bytes) : Values :=
  ((((Values.empty.Add (lit "grant_type") (lit "authorization_code")).Add
    (lit "client_id") conn.appID).Add (lit "client_secret") conn.appKey).Add
    (lit "code") code).Add (lit "redirect_uri") conn.redirectURI

/-- The provider error of `Auth` and `OpenID`:
`errors.New("Error code %d: %s", e.Error, e.ErrorMsg)`. -/
def providerError (e : errMsg) : GoError :=
  GoError.created (lit "Error code " ++ fmtInt e.Error ++ lit ": " ++ e.ErrorMsg)

/-- Go `func (conn *Connect) Auth`, results `(token, err)`. -/
def Connect.Auth (w : World) (conn : Connect) (code : Bytes) : Run (Bytes × Option GoError) :=
  let url := lit "https://graph.qq.com/oauth2.0/token?" ++ (authParams conn code).Encode
  let calls := [Event.print (url ++ lit "\n\n"), Event.httpGet url]
  match w.httpGet url with
  | (_, some e) => ⟨calls, Outcome.ret ([], Wrapper (some e))⟩
  | (none, none) => ⟨calls, Outcome.panic Panic.nilDereference⟩
  | (some resp, none) =>
    match resp.readErr with
    | some e => ⟨calls, Outcome.ret ([], Wrapper (some e))⟩
    | none =>
      let b := resp.body
      match ParseQuery w.querySyntax b with
      | (_, some e) => ⟨calls, Outcome.ret ([], Wrapper (some e))⟩
      | (urls, none) =>
        let token := urls.Get (lit "access_token")
        if token = [] then
          match callbackDecoder w.unmarshalErrMsg b errMsg.zero with
          | ⟨ev, Outcome.panic p⟩ => ⟨calls ++ ev, Outcome.panic p⟩
          | ⟨ev, Outcome.ret (_, some e)⟩ => ⟨calls ++ ev, Outcome.ret (token, some e)⟩
          | ⟨ev, Outcome.ret (e, none)⟩ =>
            ⟨calls ++ ev, Outcome.ret (token, some (providerError e))⟩
        else ⟨calls, Outcome.ret (token, none)⟩

/-- Go `func (conn *Connect) OpenID`, results `(ClientID, OpenID, UnionID, err)`.
The error of `http.Get` is overwritten by that of `ioutil.ReadAll` without
having been read. -/
def Connect.OpenID (w : World) (_conn : Connect) (token : Bytes) :
    Run (Bytes × Bytes × Bytes × Option GoError) :=
  let url := lit "https://graph.qq.com/oauth2.0/me?access_token=" ++ token ++ lit "&unionid=1"
  let calls := [Event.httpGet url]
  match (w.httpGet url).1 with
  | none => ⟨calls, Outcome.panic Panic.nilDereference⟩
  | some resp =>
    match resp.readErr with
    | some e => ⟨calls, Outcome.ret ([], [], [], Wrapper (some e))⟩
    | none =>
      let b := resp.body
      let l : Int := b.length
      match slice b 9 (l - 3) with
      | none => ⟨calls, Outcome.panic Panic.sliceBounds⟩
      | some data =>
        let calls := calls ++ [Event.jsonUnmarshal data]
        match w.unmarshalResponse data response.zero with
        | (_, some e) => ⟨calls, Outcome.ret ([], [], [], Wrapper (some e))⟩
        | (res, none) =>
          if res.OpenID = [] then
            match callbackDecoder w.unmarshalErrMsg b errMsg.zero with
            | ⟨ev, Outcome.panic p⟩ => ⟨calls ++ ev, Outcome.panic p⟩
            | ⟨ev, Outcome.ret (e, _)⟩ =>
              ⟨calls ++ ev, Outcome.ret ([], [], [], some (providerError e))⟩
          else ⟨calls, Outcome.ret (res.ClientID, res.OpenID, res.UnionID, none)⟩

/-- The error of `Info` for a non-zero `ret`:
`fmt.Errorf("Error code %d: %s", res.Ret, res.Msg)` passed through
`errors.Wrapper`. -/
def infoError (res : UserInfo) : GoError :=
  GoError.wrapped (GoError.errorf (lit "Error code " ++ fmtInt res.Ret ++ lit ": " ++ res.Msg))

/-- Go `func (conn *Connect) Info`, results `(res, err)`.  As in `OpenID` the
error of `http.Get` is not read. -/
def Connect.Info (w : World) (conn : Connect) (token openID : Bytes) :
    Run (UserInfo × Option GoError) :=
  let url := lit "https://graph.qq.com/user/get_user_info?access_token=" ++ token ++
    lit "&oauth_consumer_key=" ++ conn.appID ++ lit "&openid=" ++ openID
  let calls := [Event.httpGet url]
  match (w.httpGet url).1 with
  | none => ⟨calls, Outcome.panic Panic.nilDereference⟩
  | some resp =>
    match resp.readErr with
    | some e => ⟨calls, Outcome.ret (UserInfo.zero, Wrapper (some e))⟩
    | none =>
      let b := resp.body
      let calls := calls ++ [Event.jsonUnmarshal b]
      match w.unmarshalUserInfo b UserInfo.zero with
      | (res, some e) => ⟨calls, Outcome.ret (res, Wrapper (some e))⟩
      | (res, none) =>
        if res.Ret ≠ 0 then ⟨calls, Outcome.ret (res, some (infoError res))⟩
        else ⟨calls, Outcome.ret (res, none)⟩

/-! ## A reference `json.Unmarshal`

The statements below hold for every `World`.  To run the operations on
concrete response bodies, `goUnmarshal` decodes the JSON the provider sends the
way `encoding/json` does: an object, or `null`, whose member values are
strings (escapes other than `\u`), integers, `true`, `false` or `null`.
Outside this fragment (nested values, numbers with a fraction or an exponent,
`\u` escapes, invalid UTF-8) it reports an error where `encoding/json` need
not; it is run on no such input below. -/

/-- A member value of a flat JSON object. -/
inductive JValue where
  | str (s : Bytes)
  | int (n : Int)
  | bool (b : Bool)
  | null
  deriving DecidableEq, Repr

/-- Drops leading JSON white space (space, tab, line feed, carriage return). -/
def skipSpace : Bytes → Bytes
  | [] => []
  | c :: cs => if c = 32 ∨ c = 9 ∨ c = 10 ∨ c = 13 then skipSpace cs else c :: cs

/-- The byte an escape `\e` of a JSON string stands for. -/
def unescapeByte (e : UInt8) : Option UInt8 :=
  if e = 34 ∨ e = 92 ∨ e = 47 then some e
  else if e = 98 then some 8
  else if e = 102 then some 12
  else if e = 110 then some 10
  else if e = 114 then some 13
  else if e = 116 then some 9
  else none

/-- Reads a JSON string from after its opening quote: its content and what
follows the closing quote. -/
def scanString : Bytes → Option (Bytes × Bytes)
  | [] => none
  | 34 :: rest => some ([], rest)
  | 92 :: e :: rest =>
    match unescapeByte e, scanString rest with
    | some c, some r => some (c :: r.1, r.2)
    | _, _ => none
  | c :: rest =>
    if c < 32 ∨ c = 92 then none
    else
      match scanString rest with
      | some r => some (c :: r.1, r.2)
      | none => none

/-- The leading decimal digits of the input and what follows them. -/
def spanDigits : Bytes → Bytes × Bytes
  | [] => ([], [])
  | c :: cs =>
    if 48 ≤ c ∧ c ≤ 57 then ((c :: (spanDigits cs).1), (spanDigits cs).2) else ([], c :: cs)

/-- The number written by a list of decimal digits. -/
def digitsValue (ds : Bytes) : Nat := ds.foldl (fun n d => 10 * n + (d.toNat - 48)) 0

/-- Reads an unsigned JSON integer: no leading zero, no fraction, no exponent. -/
def scanNat (bs : Bytes) : Option (Nat × Bytes) :=
  match spanDigits bs with
  | ([], _) => none
  | (d :: ds, rest) =>
    if d = 48 ∧ ds ≠ [] then none
    else
      match rest with
      | 46 :: _ => none
      | 101 :: _ => none
      | 69 :: _ => none
      | _ => some (digitsValue (d :: ds), rest)

/-- Reads a member value. -/
def scanValue : Bytes → Option (JValue × Bytes)
  | 34 :: rest =>
    match scanString rest with
    | some r => some (JValue.str r.1, r.2)
    | none => none
  | 116 :: 114 :: 117 :: 101 :: rest => some (JValue.bool true, rest)
  | 102 :: 97 :: 108 :: 115 :: 101 :: rest => some (JValue.bool false, rest)
  | 110 :: 117 :: 108 :: 108 :: rest => some (JValue.null, rest)
  | 45 :: rest =>
    match scanNat rest with
    | some r => some (JValue.int (-(r.1 : Int)), r.2)
    | none => none
  | bs =>
    match scanNat bs with
    | some r => some (JValue.int (r.1 : Int), r.2)
    | none => none

/-- Reads one member `"key" : value`. -/
def scanMember : Bytes → Option ((Bytes × JValue) × Bytes)
  | 34 :: rest =>
    match scanString rest with
    | none => none
    | some k =>
      match skipSpace k.2 with
      | 58 :: r =>
        match scanValue (skipSpace r) with
        | some v => some ((k.1, v.1), v.2)
        | none => none
      | _ => none
  | _ => none

/-- Reads the members of an object up to its closing brace; `fuel` bounds the
number of members. -/
def scanMembers : Nat → Bytes → Option (List (Bytes × JValue) × Bytes)
  | 0, _ => none
  | fuel + 1, bs =>
    match scanMember bs with
    | none => none
    | some m =>
      match skipSpace m.2 with
      | 44 :: r =>
        match scanMembers fuel (skipSpace r) with
        | some ms => some (m.1 :: ms.1, ms.2)
        | none => none
      | 125 :: r => some ([m.1], r)
      | _ => none

/-- The members of the JSON object `data` is the text of; `some none` for the
text `null`, `none` for anything else. -/
def parseObject (data : Bytes) : Option (Option (List (Bytes × JValue))) :=
  match skipSpace data with
  | 110 :: 117 :: 108 :: 108 :: r => if skipSpace r = [] then some none else none
  | 123 :: r =>
    match skipSpace r with
    | 125 :: r2 => if skipSpace r2 = [] then some (some []) else none
    | r1 =>
      match scanMembers data.length r1 with
      | some ms => if skipSpace ms.2 = [] then some (some ms.1) else none
      | none => none
  | _ => none

/-- A field of a target struct: its `json` tag and how a value is stored in it
(`none` when the value has not the type of the field). -/
structure Field (T : Type) where
  name : Bytes
  set : T → JValue → Option T

/-- Stores a JSON string in a `string` field. -/
def setString {T : Type} (f : T → Bytes → T) (t : T) : JValue → Option T
  | JValue.str s => some (f t s)
  | _ => none

/-- Stores a JSON integer in an `int64` field. -/
def setInt64 {T : Type} (f : T → Int → T) (t : T) : JValue → Option T
  | JValue.int n => if -9223372036854775808 ≤ n ∧ n ≤ 9223372036854775807 then some (f t n) else none
  | _ => none

/-- ASCII lower case of a byte. -/
def lowerByte (c : UInt8) : UInt8 := if 65 ≤ c ∧ c ≤ 90 then c + 32 else c

/-- The field a key selects: the one with that very name, else the first one
equal to it up to the case of letters. -/
def findField {T : Type} (fields : List (Field T)) (key : Bytes) : Option (Field T) :=
  match fields.find? (fun f => f.name = key) with
  | some f => some f
  | none => fields.find? (fun f => f.name.map lowerByte = key.map lowerByte)

/-- Stores one member: an unknown key and a `null` are skipped, a value of the
wrong type leaves the field as it is and is the error if none came before. -/
def assignMember {T : Type} (fields : List (Field T)) (st : T × Option GoError)
    (m : Bytes × JValue) : T × Option GoError :=
  match findField fields m.1 with
  | none => st
  | some f =>
    if m.2 = JValue.null then st
    else
      match f.set st.1 m.2 with
      | some t => (t, st.2)
      | none => (st.1, if st.2 = none then some (GoError.json (lit "type")) else st.2)

/-- The reference decoder: `json.Unmarshal(data, &t)` for a struct `t` with
the given fields. -/
def goUnmarshal {T : Type} (fields : List (Field T)) (data : Bytes) (t : T) :
    T × Option GoError :=
  match parseObject data with
  | none => (t, some (GoError.json (lit "syntax")))
  | some none => (t, none)
  | some (some ms) => ms.foldl (assignMember fields) (t, none)

/-- The tagged fields of `errMsg`. -/
def errMsgFields : List (Field errMsg) :=
  [⟨lit "error", setInt64 fun e n => { e with Error := n }⟩,
   ⟨lit "error_description", setString fun e s => { e with ErrorMsg := s }⟩]

/-- The tagged fields of `response`. -/
def responseFields : List (Field response) :=
  [⟨lit "client_id", setString fun r s => { r with ClientID := s }⟩,
   ⟨lit "openid", setString fun r s => { r with OpenID := s }⟩,
   ⟨lit "unionid", setString fun r s => { r with UnionID := s }⟩]

/-- The tagged fields of `UserInfo`. -/
def userInfoFields : List (Field UserInfo) :=
  [⟨lit "ret", setInt64 fun u n => { u with Ret := n }⟩,
   ⟨lit "msg", setString fun u s => { u with Msg := s }⟩,
   ⟨lit "nickname", setString fun u s => { u with Nickname := s }⟩,
   ⟨lit "figureurl_type", setString fun u s => { u with FigType := s }⟩,
   ⟨lit "figureurl", setString fun u s => { u with Fig := s }⟩,
   ⟨lit "figureurl_1", setString fun u s => { u with Fig1 := s }⟩,
   ⟨lit "figureurl_2", setString fun u s => { u with Fig2 := s }⟩,
   ⟨lit "figureurl_qq", setString fun u s => { u with FigQQ := s }⟩,
   ⟨lit "figureurl_qq_1", setString fun u s => { u with FigQQ1 := s }⟩,
   ⟨lit "figureurl_qq_2", setString fun u s => { u with FigQQ2 := s }⟩,
   ⟨lit "gender", setString fun u s => { u with Gender := s }⟩,
   ⟨lit "gender_type", setInt64 fun u n => { u with GenderType := n }⟩,
   ⟨lit "province", setString fun u s => { u with Province := s }⟩,
   ⟨lit "city", setString fun u s => { u with City := s }⟩,
   ⟨lit "year", setString fun u s => { u with Year := s }⟩,
   ⟨lit "constellation", setString fun u s => { u with Constellation := s }⟩,
   ⟨lit "is_yellow_vip", setString fun u s => { u with IsYellowVIP := s }⟩,
   ⟨lit "is_yellow_year_vip", setString fun u s => { u with IsYellowYearVIP := s }⟩,
   ⟨lit "yellow_vip_level", setString fun u s => { u with YellowVIPLevel := s }⟩,
   ⟨lit "vip", setString fun u s => { u with VIP := s }⟩,
   ⟨lit "level", setString fun u s => { u with Level := s }⟩,
   ⟨lit "is_lost", setInt64 fun u n => { u with IsLost := n }⟩]

/-- The world in which every `http.Get` has the two results `get`, JSON is
decoded by the reference decoder and `url.ParseQuery` reads as `syn`. -/
def goWorld (syn : QuerySyntax) (get : Option Response × Option GoError) : World :=
  { httpGet := fun _ => get
    unmarshalErrMsg := goUnmarshal errMsgFields
    unmarshalResponse := goUnmarshal responseFields
    unmarshalUserInfo := goUnmarshal userInfoFields
    querySyntax := syn }

/-- A transport that answers with the body `b`, read without error. -/
def answers (b : Bytes) : Option Response × Option GoError := (some ⟨b, none⟩, none)

/-! ## Slicing -/

/-- With at least twelve bytes, `b[9:len(b)-3]` is `b` without its first nine
and its last three bytes. -/
theorem slice_strip (b : Bytes) (h : 12 ≤ b.length) :
    slice b 9 ((b.length : Int) - 3) = some ((b.drop 9).take (b.length - 12)) := by
  have h1 : ((b.length : Int) - 3).toNat = b.length - 3 := by omega
  have h2 : (9 : Int).toNat = 9 := rfl
  unfold slice
  rw [if_pos (by omega), h1, h2, List.drop_take]
  congr 2

/-- With fewer than twelve bytes, `b[9:len(b)-3]` is out of range. -/
theorem slice_short (b : Bytes) (h : b.length < 12) :
    slice b 9 ((b.length : Int) - 3) = none := by
  unfold slice
  rw [if_neg (by omega)]

/-- Stripping a nine-byte prefix and a three-byte suffix gives back what they
enclose. -/
theorem slice_wrapped (p J s : Bytes) (hp : p.length = 9) (hs : s.length = 3) :
    slice (p ++ J ++ s) 9 (((p ++ J ++ s).length : Int) - 3) = some J := by
  rw [slice_strip _ (by simp [hp, hs]; omega)]
  have : (p ++ J ++ s).length - 12 = J.length := by simp [hp, hs]; omega
  rw [this, List.append_assoc, List.drop_left' hp, List.take_left' rfl]

/-! ## The query string of `Auth` -/

/-- The map `Auth` builds: one value under each of its five keys. -/
theorem authParams_entries (conn : Connect) (code : Bytes) :
    (authParams conn code).entries =
      [(lit "grant_type", [lit "authorization_code"]), (lit "client_id", [conn.appID]),
       (lit "client_secret", [conn.appKey]), (lit "code", [code]),
       (lit "redirect_uri", [conn.redirectURI])] := rfl

/-- The five keys in the order `sort.Strings` puts them. -/
theorem authParams_keys :
    sortStrings [lit "grant_type", lit "client_id", lit "client_secret", lit "code",
        lit "redirect_uri"] =
      [lit "client_id", lit "client_secret", lit "code", lit "grant_type", lit "redirect_uri"] := by
  decide

/-- What `Values.Encode` writes for a key with a single value. -/
theorem encodeKey_single (v : Values) (k x : Bytes) (h : v.entries.lookup k = some [x]) :
    encodeKey v k = 38 :: (QueryEscape k ++ 61 :: QueryEscape x) := by
  simp [encodeKey, h]

/-- The query string of the token request. -/
theorem authParams_encode (conn : Connect) (code : Bytes) :
    (authParams conn code).Encode =
      lit "client_id=" ++ QueryEscape conn.appID ++ lit "&client_secret=" ++
        QueryEscape conn.appKey ++ lit "&code=" ++ QueryEscape code ++
        lit "&grant_type=authorization_code&redirect_uri=" ++ QueryEscape conn.redirectURI := by
  have k1 : encodeKey (authParams conn code) (lit "client_id") =
      lit "&client_id=" ++ QueryEscape conn.appID :=
    encodeKey_single _ _ _ (by rw [authParams_entries]; rfl)
  have k2 : encodeKey (authParams conn code) (lit "client_secret") =
      lit "&client_secret=" ++ QueryEscape conn.appKey :=
    encodeKey_single _ _ _ (by rw [authParams_entries]; rfl)
  have k3 : encodeKey (authParams conn code) (lit "code") = lit "&code=" ++ QueryEscape code :=
    encodeKey_single _ _ _ (by rw [authParams_entries]; rfl)
  have k4 : encodeKey (authParams conn code) (lit "grant_type") =
      lit "&grant_type=authorization_code" :=
    (encodeKey_single _ _ _ (by rw [authParams_entries]; rfl)).trans (by decide)
  have k5 : encodeKey (authParams conn code) (lit "redirect_uri") =
      lit "&redirect_uri=" ++ QueryEscape conn.redirectURI :=
    encodeKey_single _ _ _ (by rw [authParams_entries]; rfl)
  unfold Values.Encode
  rw [authParams_entries]
  simp only [List.map, authParams_keys, List.flatMap_cons, List.flatMap_nil, k1, k2, k3, k4, k5,
    List.append_assoc, List.append_nil]
  rfl

set_option maxRecDepth 100000

/-! ## Runs -/

/-- The only external call of `callbackDecoder` is `json.Unmarshal`. -/
theorem callbackDecoder_events {T : Type} (unmarshal : Bytes → T → T × Option GoError)
    (b : Bytes) (res : T) (u : Bytes) :
    Event.httpGet u ∉ (callbackDecoder unmarshal b res).events := by
  unfold callbackDecoder
  split <;> simp

/-- On a body of at least twelve bytes `callbackDecoder` hands the stripped
bytes to `json.Unmarshal` and returns. -/
theorem callbackDecoder_long {T : Type} (unmarshal : Bytes → T → T × Option GoError)
    (b : Bytes) (res : T) (h : 12 ≤ b.length) :
    callbackDecoder unmarshal b res =
      ⟨[Event.jsonUnmarshal ((b.drop 9).take (b.length - 12))],
        Outcome.ret ((unmarshal ((b.drop 9).take (b.length - 12)) res).1,
          Wrapper (unmarshal ((b.drop 9).take (b.length - 12)) res).2)⟩ := by
  unfold callbackDecoder
  rw [slice_strip b h]

/-- On a body of fewer than twelve bytes `callbackDecoder` panics. -/
theorem callbackDecoder_short {T : Type} (unmarshal : Bytes → T → T × Option GoError)
    (b : Bytes) (res : T) (h : b.length < 12) :
    callbackDecoder unmarshal b res = ⟨[], Outcome.panic Panic.sliceBounds⟩ := by
  unfold callbackDecoder
  rw [slice_short b h]

/-- The run of `Auth` on a body that form-decodes without error and without a
non-empty `access_token`, of at least twelve bytes. -/
theorem Auth_envelope (w : World) (conn : Connect) (code b : Bytes) (vals : Values)
    (hget : w.httpGet (lit "https://graph.qq.com/oauth2.0/token?" ++
      (authParams conn code).Encode) = (some ⟨b, none⟩, none))
    (hparse : ParseQuery w.querySyntax b = (vals, none))
    (htok : vals.Get (lit "access_token") = []) (hlen : 12 ≤ b.length) :
    (conn.Auth w code).outcome =
      match (w.unmarshalErrMsg ((b.drop 9).take (b.length - 12)) errMsg.zero).2 with
      | some e => Outcome.ret ([], some (GoError.wrapped e))
      | none => Outcome.ret ([], some (providerError
          (w.unmarshalErrMsg ((b.drop 9).take (b.length - 12)) errMsg.zero).1)) := by
  simp only [Connect.Auth, hget, hparse, htok, if_true, callbackDecoder_long _ b _ hlen]
  cases h : (w.unmarshalErrMsg ((b.drop 9).take (b.length - 12)) errMsg.zero).2 <;>
    simp [Wrapper]


/-! ## The claims -/

/-- C1: for every `appId`, `appKey`, `redirectURI` and `state`,
`New(appId, appKey, redirectURI).LoginPage(state)` is exactly the authorize
URL followed by `appId`, `&redirect_uri=`, `redirectURI`, `&state=` and
`state`, nothing escaped; `appId`, `redirectURI` and `state` are substrings of
it. -/
theorem LoginPage_exact (appId appKey redirectURI state : Bytes) :
    (New appId appKey redirectURI).LoginPage state =
        lit "https://graph.qq.com/oauth2.0/authorize?response_type=code&client_id=" ++ appId ++
          lit "&redirect_uri=" ++ redirectURI ++ lit "&state=" ++ state ∧
      appId <:+: (New appId appKey redirectURI).LoginPage state ∧
      redirectURI <:+: (New appId appKey redirectURI).LoginPage state ∧
      state <:+: (New appId appKey redirectURI).LoginPage state := by
  refine ⟨rfl, ?_, ?_, ?_⟩
  · exact ⟨lit "https://graph.qq.com/oauth2.0/authorize?response_type=code&client_id=",
      lit "&redirect_uri=" ++ redirectURI ++ lit "&state=" ++ state, by
        simp [Connect.LoginPage, New, List.append_assoc]⟩
  · exact ⟨lit "https://graph.qq.com/oauth2.0/authorize?response_type=code&client_id=" ++ appId ++
      lit "&redirect_uri=", lit "&state=" ++ state, by
        simp [Connect.LoginPage, New, List.append_assoc]⟩
  · exact ⟨lit "https://graph.qq.com/oauth2.0/authorize?response_type=code&client_id=" ++ appId ++
      lit "&redirect_uri=" ++ redirectURI ++ lit "&state=", [], by
        simp [Connect.LoginPage, New, List.append_assoc]⟩

/-- C2: when the body of the token response form-decodes without error and the
first `access_token` value `t` is not empty, `Auth` returns `t` and a nil
error and `json.Unmarshal` is not called; with either `url.ParseQuery` the body
`access_token=ABC123&expires_in=7776000` gives the token `ABC123` and a nil
error. -/
theorem Auth_returns_access_token :
    (∀ (w : World) (conn : Connect) (code b t : Bytes) (vals : Values),
      w.httpGet (lit "https://graph.qq.com/oauth2.0/token?" ++ (authParams conn code).Encode) =
        (some ⟨b, none⟩, none) →
      ParseQuery w.querySyntax b = (vals, none) →
      vals.Get (lit "access_token") = t → t ≠ [] →
      (conn.Auth w code).outcome = Outcome.ret (t, none) ∧
        ∀ d, Event.jsonUnmarshal d ∉ (conn.Auth w code).events) ∧
    (∀ (syn : QuerySyntax) (conn : Connect) (code : Bytes),
      (conn.Auth (goWorld syn (answers (lit "access_token=ABC123&expires_in=7776000")))
        code).outcome = Outcome.ret (lit "ABC123", none)) := by
  have gen : ∀ (w : World) (conn : Connect) (code b t : Bytes) (vals : Values),
      w.httpGet (lit "https://graph.qq.com/oauth2.0/token?" ++ (authParams conn code).Encode) =
        (some ⟨b, none⟩, none) →
      ParseQuery w.querySyntax b = (vals, none) →
      vals.Get (lit "access_token") = t → t ≠ [] →
      (conn.Auth w code).outcome = Outcome.ret (t, none) ∧
        ∀ d, Event.jsonUnmarshal d ∉ (conn.Auth w code).events := by
    intro w conn code b t vals hget hparse htok hne
    subst htok
    simp [Connect.Auth, hget, hparse, hne]
  refine ⟨gen, ?_⟩
  intro syn conn code
  refine (gen (goWorld syn (answers (lit "access_token=ABC123&expires_in=7776000"))) conn code
    (lit "access_token=ABC123&expires_in=7776000") (lit "ABC123")
    (ParseQuery syn (lit "access_token=ABC123&expires_in=7776000")).1 rfl ?_ ?_ (by decide)).1
  · cases syn <;> decide
  · cases syn <;> decide

/-- Witness of C2: a body of the success format, read with the Go 1.17
`url.ParseQuery`. -/
theorem Auth_returns_access_token_witness :
    (goWorld QuerySyntax.semicolonRejected (answers (lit "access_token=T0&expires_in=60"))).httpGet
        (lit "https://graph.qq.com/oauth2.0/token?" ++
          (authParams (New (lit "101") (lit "key") (lit "https://example.com/cb"))
            (lit "c0de")).Encode) = (some ⟨lit "access_token=T0&expires_in=60", none⟩, none) ∧
      ParseQuery QuerySyntax.semicolonRejected (lit "access_token=T0&expires_in=60") =
        (⟨[(lit "access_token", [lit "T0"]), (lit "expires_in", [lit "60"])]⟩, none) ∧
      lit "T0" ≠ [] ∧
      ((New (lit "101") (lit "key") (lit "https://example.com/cb")).Auth
          (goWorld QuerySyntax.semicolonRejected (answers (lit "access_token=T0&expires_in=60")))
          (lit "c0de")).outcome = Outcome.ret (lit "T0", none) :=
  ⟨rfl, by decide, by decide,
    (Auth_returns_access_token.1
      (goWorld QuerySyntax.semicolonRejected (answers (lit "access_token=T0&expires_in=60")))
      (New (lit "101") (lit "key") (lit "https://example.com/cb")) (lit "c0de")
      (lit "access_token=T0&expires_in=60") (lit "T0")
      ⟨[(lit "access_token", [lit "T0"]), (lit "expires_in", [lit "60"])]⟩
      rfl (by decide) (by decide) (by decide)).1⟩

/-- C3, as amended: when the body of the token response is a nine-byte prefix,
a payload and a three-byte suffix, the body form-decodes without error and
without a non-empty `access_token` value, and `json.Unmarshal` reads the
payload as `{error: c, error_description: d}`, `Auth` returns the empty token
and the error `Error code c: d`. -/
theorem Auth_provider_error (w : World) (conn : Connect) (code p J s d : Bytes) (c : Int)
    (vals : Values) (hp : p.length = 9) (hs : s.length = 3)
    (hget : w.httpGet (lit "https://graph.qq.com/oauth2.0/token?" ++
      (authParams conn code).Encode) = (some ⟨p ++ J ++ s, none⟩, none))
    (hparse : ParseQuery w.querySyntax (p ++ J ++ s) = (vals, none))
    (htok : vals.Get (lit "access_token") = [])
    (hjson : w.unmarshalErrMsg J errMsg.zero = (⟨c, d⟩, none)) :
    (conn.Auth w code).outcome =
      Outcome.ret ([], some (GoError.created (lit "Error code " ++ fmtInt c ++ lit ": " ++ d))) := by
  have hlen : 12 ≤ (p ++ J ++ s).length := by simp [hp, hs]; omega
  have hstrip : ((p ++ J ++ s).drop 9).take ((p ++ J ++ s).length - 12) = J := by
    have h1 := slice_strip _ hlen
    rw [slice_wrapped p J s hp hs] at h1
    exact (Option.some.inj h1).symm
  rw [Auth_envelope w conn code _ vals hget hparse htok hlen, hstrip, hjson]
  rfl

/-- Witness of C3 as amended: the error body of the specification, wrapped in
`callback(` and `);` with a line feed, read with the `url.ParseQuery` that
takes the semicolon for a separator. -/
theorem Auth_provider_error_witness :
    (lit "callback(").length = 9 ∧ (lit ");\n").length = 3 ∧
      ParseQuery QuerySyntax.semicolonSeparates
          (lit "callback(" ++ lit "\x7b\"error\":100016,\"error_description\":\"invalid code\"\x7d" ++
            lit ");\n") =
        (⟨[(lit "callback(\x7b\"error\":100016,\"error_description\":\"invalid code\"\x7d)", [[]]),
           (lit "\n", [[]])]⟩, none) ∧
      goUnmarshal errMsgFields (lit "\x7b\"error\":100016,\"error_description\":\"invalid code\"\x7d")
          errMsg.zero = (⟨100016, lit "invalid code"⟩, none) ∧
      ((New (lit "101") (lit "key") (lit "https://example.com/cb")).Auth
          (goWorld QuerySyntax.semicolonSeparates (answers (lit "callback(" ++
            lit "\x7b\"error\":100016,\"error_description\":\"invalid code\"\x7d" ++ lit ");\n")))
          (lit "c0de")).outcome =
        Outcome.ret ([], some (GoError.created (lit "Error code 100016: invalid code"))) :=
  ⟨by decide, by decide, by decide, by decide,
    (Auth_provider_error
      (goWorld QuerySyntax.semicolonSeparates (answers (lit "callback(" ++
        lit "\x7b\"error\":100016,\"error_description\":\"invalid code\"\x7d" ++ lit ");\n")))
      (New (lit "101") (lit "key") (lit "https://example.com/cb")) (lit "c0de")
      (lit "callback(") (lit "\x7b\"error\":100016,\"error_description\":\"invalid code\"\x7d")
      (lit ");\n") (lit "invalid code") 100016
      ⟨[(lit "callback(\x7b\"error\":100016,\"error_description\":\"invalid code\"\x7d)", [[]]),
        (lit "\n", [[]])]⟩
      (by decide) (by decide) rfl (by decide) (by decide) (by decide)).trans (by decide)⟩

/-- Counterexample to C3 as stated: the body is `callback(`, the JSON object
with `error` 1 and `error_description` `a&access_token=T&z`, and `);` with a
line feed; the payload decodes to that code and description.  With the
`url.ParseQuery` that takes the semicolon for a separator `Auth` returns the
token `T` and a nil error; with the one that rejects it, `Auth` returns the
error of `url.ParseQuery`, as it does on the error body of the specification.
In no case is the error `Error code c: d`. -/
theorem form_decoding_shadows_envelope :
    (lit "callback(").length = 9 ∧ (lit ");\n").length = 3 ∧
      goUnmarshal errMsgFields
          (lit "\x7b\"error\":1,\"error_description\":\"a&access_token=T&z\"\x7d") errMsg.zero =
        (⟨1, lit "a&access_token=T&z"⟩, none) ∧
      ((New (lit "101") (lit "key") (lit "https://example.com/cb")).Auth
          (goWorld QuerySyntax.semicolonSeparates (answers (lit "callback(" ++
            lit "\x7b\"error\":1,\"error_description\":\"a&access_token=T&z\"\x7d" ++ lit ");\n")))
          (lit "c0de")).outcome = Outcome.ret (lit "T", none) ∧
      ((New (lit "101") (lit "key") (lit "https://example.com/cb")).Auth
          (goWorld QuerySyntax.semicolonRejected (answers (lit "callback(" ++
            lit "\x7b\"error\":1,\"error_description\":\"a&access_token=T&z\"\x7d" ++ lit ");\n")))
          (lit "c0de")).outcome =
        Outcome.ret ([], some (GoError.wrapped GoError.semicolon)) ∧
      ((New (lit "101") (lit "key") (lit "https://example.com/cb")).Auth
          (goWorld QuerySyntax.semicolonRejected (answers (lit "callback(" ++
            lit "\x7b\"error\":100016,\"error_description\":\"invalid code\"\x7d" ++ lit ");\n")))
          (lit "c0de")).outcome =
        Outcome.ret ([], some (GoError.wrapped GoError.semicolon)) ∧
      Outcome.ret (lit "T", none) ≠
        (Outcome.ret ([], some (GoError.created (lit "Error code 1: a&access_token=T&z"))) :
          Outcome (Bytes × Option GoError)) ∧
      Outcome.ret ([], some (GoError.wrapped GoError.semicolon)) ≠
        (Outcome.ret ([], some (GoError.created (lit "Error code 1: a&access_token=T&z"))) :
          Outcome (Bytes × Option GoError)) := by
  refine ⟨by decide, by decide, by decide, by decide, by decide, by decide, by decide, by decide⟩


/-- C4: when the body of the identity response is a nine-byte prefix, a
payload and a three-byte suffix, and `json.Unmarshal` reads the payload as
`{client_id: X, openid: O, unionid: U}` with `O` not empty, `OpenID` returns
`(X, O, U)` and a nil error; the wrapped object with `X`, `O1` and `U1` gives
those three. -/
theorem OpenID_returns_identifiers :
    (∀ (w : World) (conn : Connect) (token p J s X O U : Bytes),
      p.length = 9 → s.length = 3 →
      (w.httpGet (lit "https://graph.qq.com/oauth2.0/me?access_token=" ++ token ++
        lit "&unionid=1")).1 = some ⟨p ++ J ++ s, none⟩ →
      w.unmarshalResponse J response.zero = (⟨X, O, U⟩, none) → O ≠ [] →
      (conn.OpenID w token).outcome = Outcome.ret (X, O, U, none)) ∧
    (∀ (syn : QuerySyntax) (conn : Connect) (token : Bytes),
      (conn.OpenID (goWorld syn (answers (lit "callback(" ++
        lit "\x7b\"client_id\":\"X\",\"openid\":\"O1\",\"unionid\":\"U1\"\x7d" ++ lit ");\n")))
        token).outcome = Outcome.ret (lit "X", lit "O1", lit "U1", none)) := by
  have gen : ∀ (w : World) (conn : Connect) (token p J s X O U : Bytes),
      p.length = 9 → s.length = 3 →
      (w.httpGet (lit "https://graph.qq.com/oauth2.0/me?access_token=" ++ token ++
        lit "&unionid=1")).1 = some ⟨p ++ J ++ s, none⟩ →
      w.unmarshalResponse J response.zero = (⟨X, O, U⟩, none) → O ≠ [] →
      (conn.OpenID w token).outcome = Outcome.ret (X, O, U, none) := by
    intro w conn token p J s X O U hp hs hget hjson hne
    simp only [Connect.OpenID, hget, slice_wrapped p J s hp hs, hjson]
    simp [hne]
  refine ⟨gen, ?_⟩
  intro syn conn token
  have hj : goUnmarshal responseFields
      (lit "\x7b\"client_id\":\"X\",\"openid\":\"O1\",\"unionid\":\"U1\"\x7d") response.zero =
      (⟨lit "X", lit "O1", lit "U1"⟩, none) := by decide
  exact gen (goWorld syn _) conn token (lit "callback(")
    (lit "\x7b\"client_id\":\"X\",\"openid\":\"O1\",\"unionid\":\"U1\"\x7d") (lit ");\n")
    (lit "X") (lit "O1") (lit "U1") (by decide) (by decide) rfl hj (by decide)

/-- Witness of C4: an identity body in the wrapper the provider sends, with
white space around the object. -/
theorem OpenID_returns_identifiers_witness :
    (lit "callback(").length = 9 ∧ (lit ");\n").length = 3 ∧
      goUnmarshal responseFields (lit " \x7b\"client_id\":\"101\",\"openid\":\"A1\"\x7d ")
        response.zero = (⟨lit "101", lit "A1", []⟩, none) ∧
      lit "A1" ≠ [] ∧
      ((New (lit "101") (lit "key") (lit "https://example.com/cb")).OpenID
          (goWorld QuerySyntax.semicolonRejected (answers (lit "callback(" ++
            lit " \x7b\"client_id\":\"101\",\"openid\":\"A1\"\x7d " ++ lit ");\n")))
          (lit "T0")).outcome = Outcome.ret (lit "101", lit "A1", [], none) :=
  ⟨by decide, by decide, by decide, by decide,
    OpenID_returns_identifiers.1
      (goWorld QuerySyntax.semicolonRejected (answers (lit "callback(" ++
        lit " \x7b\"client_id\":\"101\",\"openid\":\"A1\"\x7d " ++ lit ");\n")))
      (New (lit "101") (lit "key") (lit "https://example.com/cb")) (lit "T0")
      (lit "callback(") (lit " \x7b\"client_id\":\"101\",\"openid\":\"A1\"\x7d ") (lit ");\n")
      (lit "101") (lit "A1") [] (by decide) (by decide) rfl (by decide) (by decide)⟩

/-- C5: when `json.Unmarshal` reads the stripped payload `b[9:len(b)-3]` of
the identity response without error and leaves `openid` empty, `OpenID`
returns three empty identifiers and the error `Error code <error>:
<error_description>`, the two fields being those `json.Unmarshal` reads from
the same payload into an `errMsg`. -/
theorem OpenID_empty_openid_fails (w : World) (conn : Connect) (token b data : Bytes)
    (res : response)
    (hget : (w.httpGet (lit "https://graph.qq.com/oauth2.0/me?access_token=" ++ token ++
      lit "&unionid=1")).1 = some ⟨b, none⟩)
    (hstrip : slice b 9 ((b.length : Int) - 3) = some data)
    (hjson : w.unmarshalResponse data response.zero = (res, none))
    (hempty : res.OpenID = []) :
    (conn.OpenID w token).outcome =
      Outcome.ret ([], [], [], some (GoError.created (lit "Error code " ++
        fmtInt (w.unmarshalErrMsg data errMsg.zero).1.Error ++ lit ": " ++
        (w.unmarshalErrMsg data errMsg.zero).1.ErrorMsg))) := by
  simp only [Connect.OpenID, hget, hstrip, hjson, hempty, if_true, callbackDecoder]
  rfl

/-- Witness of C5: the error body of the provider on the identity endpoint. -/
theorem OpenID_empty_openid_fails_witness :
    slice (lit "callback( \x7b\"error\":100016,\"error_description\":\"invalid code\"\x7d );\n") 9
        (((lit "callback( \x7b\"error\":100016,\"error_description\":\"invalid code\"\x7d );\n").length
          : Int) - 3) =
        some (lit " \x7b\"error\":100016,\"error_description\":\"invalid code\"\x7d ") ∧
      goUnmarshal responseFields
          (lit " \x7b\"error\":100016,\"error_description\":\"invalid code\"\x7d ") response.zero =
        (response.zero, none) ∧
      response.zero.OpenID = [] ∧
      ((New (lit "101") (lit "key") (lit "https://example.com/cb")).OpenID
          (goWorld QuerySyntax.semicolonRejected (answers
            (lit "callback( \x7b\"error\":100016,\"error_description\":\"invalid code\"\x7d );\n")))
          (lit "T0")).outcome =
        Outcome.ret ([], [], [], some (GoError.created (lit "Error code 100016: invalid code"))) :=
  ⟨by decide, by decide, rfl,
    (OpenID_empty_openid_fails
      (goWorld QuerySyntax.semicolonRejected (answers
        (lit "callback( \x7b\"error\":100016,\"error_description\":\"invalid code\"\x7d );\n")))
      (New (lit "101") (lit "key") (lit "https://example.com/cb")) (lit "T0")
      (lit "callback( \x7b\"error\":100016,\"error_description\":\"invalid code\"\x7d );\n")
      (lit " \x7b\"error\":100016,\"error_description\":\"invalid code\"\x7d ") response.zero
      rfl (by decide) (by decide) rfl).trans (by decide)⟩

/-- C6: when `json.Unmarshal` reads the whole body of the profile response
into the record `r` without error, `Info` hands the unstripped body to
`json.Unmarshal` and returns `r`; its error is nil if and only if `r.Ret` is
0, and otherwise it is the wrapped error `Error code <Ret>: <Msg>`.  The body
with `ret` 0 and nickname `Alice` gives that nickname and a nil error; the
body with `ret` 1 and `msg` `token expired` gives `Error code 1: token
expired`. -/
theorem Info_status :
    (∀ (w : World) (conn : Connect) (token openID b : Bytes) (r : UserInfo),
      (w.httpGet (lit "https://graph.qq.com/user/get_user_info?access_token=" ++ token ++
        lit "&oauth_consumer_key=" ++ conn.appID ++ lit "&openid=" ++ openID)).1 =
          some ⟨b, none⟩ →
      w.unmarshalUserInfo b UserInfo.zero = (r, none) →
      (∀ d, Event.jsonUnmarshal d ∈ (conn.Info w token openID).events ↔ d = b) ∧
      ((∃ res, (conn.Info w token openID).outcome = Outcome.ret (res, none)) ↔ r.Ret = 0) ∧
      (r.Ret = 0 → (conn.Info w token openID).outcome = Outcome.ret (r, none)) ∧
      (r.Ret ≠ 0 → (conn.Info w token openID).outcome =
        Outcome.ret (r, some (GoError.wrapped (GoError.errorf
          (lit "Error code " ++ fmtInt r.Ret ++ lit ": " ++ r.Msg)))))) ∧
    (∀ (syn : QuerySyntax) (conn : Connect) (token openID : Bytes),
      (conn.Info (goWorld syn (answers (lit "\x7b\"ret\":0,\"nickname\":\"Alice\"\x7d")))
        token openID).outcome =
          Outcome.ret ({ UserInfo.zero with Nickname := lit "Alice" }, none) ∧
      (conn.Info (goWorld syn (answers (lit "\x7b\"ret\":1,\"msg\":\"token expired\"\x7d")))
        token openID).outcome =
          Outcome.ret ({ UserInfo.zero with Ret := 1, Msg := lit "token expired" },
            some (GoError.wrapped (GoError.errorf (lit "Error code 1: token expired"))))) := by
  have gen : ∀ (w : World) (conn : Connect) (token openID b : Bytes) (r : UserInfo),
      (w.httpGet (lit "https://graph.qq.com/user/get_user_info?access_token=" ++ token ++
        lit "&oauth_consumer_key=" ++ conn.appID ++ lit "&openid=" ++ openID)).1 =
          some ⟨b, none⟩ →
      w.unmarshalUserInfo b UserInfo.zero = (r, none) →
      (∀ d, Event.jsonUnmarshal d ∈ (conn.Info w token openID).events ↔ d = b) ∧
      ((∃ res, (conn.Info w token openID).outcome = Outcome.ret (res, none)) ↔ r.Ret = 0) ∧
      (r.Ret = 0 → (conn.Info w token openID).outcome = Outcome.ret (r, none)) ∧
      (r.Ret ≠ 0 → (conn.Info w token openID).outcome =
        Outcome.ret (r, some (GoError.wrapped (GoError.errorf
          (lit "Error code " ++ fmtInt r.Ret ++ lit ": " ++ r.Msg))))) := by
    intro w conn token openID b r hget hjson
    simp only [Connect.Info, hget, hjson]
    by_cases h0 : r.Ret = 0
    · simp [h0]
    · simp [h0, infoError]
  refine ⟨gen, ?_⟩
  intro syn conn token openID
  have ha : goUnmarshal userInfoFields (lit "\x7b\"ret\":0,\"nickname\":\"Alice\"\x7d") UserInfo.zero =
      ({ UserInfo.zero with Nickname := lit "Alice" }, none) := by decide
  have hb : goUnmarshal userInfoFields (lit "\x7b\"ret\":1,\"msg\":\"token expired\"\x7d")
      UserInfo.zero = ({ UserInfo.zero with Ret := 1, Msg := lit "token expired" }, none) := by
    decide
  constructor
  · exact (gen (goWorld syn (answers (lit "\x7b\"ret\":0,\"nickname\":\"Alice\"\x7d"))) conn token
      openID _ { UserInfo.zero with Nickname := lit "Alice" } rfl ha).2.2.1 rfl
  · exact ((gen (goWorld syn (answers (lit "\x7b\"ret\":1,\"msg\":\"token expired\"\x7d"))) conn token
      openID _ { UserInfo.zero with Ret := 1, Msg := lit "token expired" } rfl
      hb).2.2.2 (by decide)).trans (by decide)

/-- Witness of C6: a profile body whose `ret` is not 0. -/
theorem Info_status_witness :
    goUnmarshal userInfoFields (lit "\x7b\"ret\":-1,\"msg\":\"invalid openid\"\x7d")
        UserInfo.zero =
        ({ UserInfo.zero with Ret := -1, Msg := lit "invalid openid" },
          none) ∧
      ((New (lit "101") (lit "key") (lit "https://example.com/cb")).Info
          (goWorld QuerySyntax.semicolonRejected (answers
            (lit "\x7b\"ret\":-1,\"msg\":\"invalid openid\"\x7d")))
          (lit "T0") (lit "A1")).outcome =
        Outcome.ret
          ({ UserInfo.zero with Ret := -1, Msg := lit "invalid openid" },
            some (GoError.wrapped (GoError.errorf
              (lit "Error code -1: invalid openid")))) :=
  ⟨by decide,
    ((Info_status.1
      (goWorld QuerySyntax.semicolonRejected (answers
        (lit "\x7b\"ret\":-1,\"msg\":\"invalid openid\"\x7d")))
      (New (lit "101") (lit "key") (lit "https://example.com/cb")) (lit "T0") (lit "A1")
      (lit "\x7b\"ret\":-1,\"msg\":\"invalid openid\"\x7d")
      { UserInfo.zero with Ret := -1, Msg := lit "invalid openid" }
      rfl (by decide)).2.2.2 (by decide)).trans (by decide)⟩

/-- C7, the code at a failed `http.Get` (no response, the error `e`): `Auth`
returns the wrapped error, `OpenID` and `Info` read `resp.Body` of the nil
response and panic. -/
theorem transport_failure_outcomes (w : World) (e : GoError) (conn : Connect)
    (code token openID : Bytes) :
    (conn.Auth { w with httpGet := fun _ => (none, some e) } code).outcome =
        Outcome.ret ([], some (GoError.wrapped e)) ∧
      (conn.OpenID { w with httpGet := fun _ => (none, some e) } token).outcome =
        Outcome.panic Panic.nilDereference ∧
      (conn.Info { w with httpGet := fun _ => (none, some e) } token openID).outcome =
        Outcome.panic Panic.nilDereference :=
  ⟨rfl, rfl, rfl⟩


/-- The external calls of `Auth`: the URL is printed, then requested; the only
call that may follow is `json.Unmarshal`. -/
theorem Auth_events (w : World) (conn : Connect) (code : Bytes) :
    ∃ rest, (conn.Auth w code).events =
        [Event.print (lit "https://graph.qq.com/oauth2.0/token?" ++
            (authParams conn code).Encode ++ lit "\n\n"),
          Event.httpGet (lit "https://graph.qq.com/oauth2.0/token?" ++
            (authParams conn code).Encode)] ++ rest ∧
      ∀ u, Event.httpGet u ∉ rest := by
  unfold Connect.Auth
  simp only
  split
  · exact ⟨[], by simp⟩
  · exact ⟨[], by simp⟩
  · split
    · exact ⟨[], by simp⟩
    · split
      · exact ⟨[], by simp⟩
      · split
        · split
          all_goals
            rename_i h
            refine ⟨_, rfl, fun u hu => ?_⟩
            exact callbackDecoder_events _ _ _ u (by rw [h]; exact hu)
        · exact ⟨[], by simp⟩

/-- C8: for every `appId`, `appKey`, `redirectURI` and `code`, the URL that
`Auth` requests, and the only one, is the token endpoint followed by
`client_id`, `client_secret`, `code`, `grant_type=authorization_code` and
`redirect_uri`, in this (ascending) order of the keys, each value
query-escaped. -/
theorem Auth_requests_token_url (w : World) (appId appKey redirectURI code : Bytes) :
    Event.httpGet (lit "https://graph.qq.com/oauth2.0/token?" ++ lit "client_id=" ++
        QueryEscape appId ++ lit "&client_secret=" ++ QueryEscape appKey ++ lit "&code=" ++
        QueryEscape code ++ lit "&grant_type=" ++ QueryEscape (lit "authorization_code") ++
        lit "&redirect_uri=" ++ QueryEscape redirectURI) ∈
        ((New appId appKey redirectURI).Auth w code).events ∧
      ∀ u, Event.httpGet u ∈ ((New appId appKey redirectURI).Auth w code).events →
        u = lit "https://graph.qq.com/oauth2.0/token?" ++ lit "client_id=" ++
          QueryEscape appId ++ lit "&client_secret=" ++ QueryEscape appKey ++ lit "&code=" ++
          QueryEscape code ++ lit "&grant_type=" ++ QueryEscape (lit "authorization_code") ++
          lit "&redirect_uri=" ++ QueryEscape redirectURI := by
  have hurl : lit "https://graph.qq.com/oauth2.0/token?" ++ lit "client_id=" ++
      QueryEscape appId ++ lit "&client_secret=" ++ QueryEscape appKey ++ lit "&code=" ++
      QueryEscape code ++ lit "&grant_type=" ++ QueryEscape (lit "authorization_code") ++
      lit "&redirect_uri=" ++ QueryEscape redirectURI =
      lit "https://graph.qq.com/oauth2.0/token?" ++
        (authParams (New appId appKey redirectURI) code).Encode := by
    have hg : QueryEscape (lit "authorization_code") = lit "authorization_code" := by decide
    have hj : lit "&grant_type=authorization_code&redirect_uri=" =
        lit "&grant_type=" ++ (lit "authorization_code" ++ lit "&redirect_uri=") := by decide
    rw [authParams_encode, hg, hj]
    simp only [New, List.append_assoc]
  obtain ⟨rest, hev, hrest⟩ := Auth_events w (New appId appKey redirectURI) code
  rw [hurl, hev]
  constructor
  · simp
  · intro u hu
    simp only [List.mem_append, List.mem_cons, List.mem_singleton, Event.httpGet.injEq,
      List.not_mem_nil, or_false, false_or, reduceCtorEq] at hu
    rcases hu with h | h
    · exact h
    · exact absurd h (hrest u)

/-- C9: for a body `b` of at least twelve bytes the slice `b[9:len(b)-3]` is
`b` without its first nine and last three bytes and has `len(b) - 12` bytes;
it gives back `J` from a nine-byte prefix, `J` and a three-byte suffix; these
are the bytes `callbackDecoder` hands to `json.Unmarshal`, and the only ones
`OpenID` hands to it. -/
theorem strip_envelope_exact :
    (∀ b : Bytes, 12 ≤ b.length →
      slice b 9 ((b.length : Int) - 3) = some ((b.drop 9).take (b.length - 12)) ∧
        ((b.drop 9).take (b.length - 12)).length = b.length - 12) ∧
    (∀ p J s : Bytes, p.length = 9 → s.length = 3 →
      slice (p ++ J ++ s) 9 (((p ++ J ++ s).length : Int) - 3) = some J) ∧
    (∀ (T : Type) (unmarshal : Bytes → T → T × Option GoError) (b : Bytes) (res : T),
      12 ≤ b.length →
      callbackDecoder unmarshal b res =
        ⟨[Event.jsonUnmarshal ((b.drop 9).take (b.length - 12))],
          Outcome.ret ((unmarshal ((b.drop 9).take (b.length - 12)) res).1,
            Wrapper (unmarshal ((b.drop 9).take (b.length - 12)) res).2)⟩) ∧
    (∀ (w : World) (conn : Connect) (token b : Bytes),
      (w.httpGet (lit "https://graph.qq.com/oauth2.0/me?access_token=" ++ token ++
        lit "&unionid=1")).1 = some ⟨b, none⟩ → 12 ≤ b.length →
      ∀ d, Event.jsonUnmarshal d ∈ (conn.OpenID w token).events ↔
        d = (b.drop 9).take (b.length - 12)) := by
  refine ⟨fun b h => ⟨slice_strip b h, ?_⟩, slice_wrapped,
    fun T unmarshal b res h => callbackDecoder_long unmarshal b res h, ?_⟩
  · rw [List.length_take, List.length_drop]
    omega
  · intro w conn token b hget hlen d
    simp only [Connect.OpenID, hget, slice_strip b hlen, callbackDecoder_long _ b _ hlen]
    split
    · simp
    · split <;> simp

/-- Witness of C9: the identity body of the specification in the provider's
wrapper. -/
theorem strip_envelope_exact_witness :
    12 ≤ (lit "callback( \x7b\"openid\":\"O1\"\x7d );\n").length ∧
      slice (lit "callback( \x7b\"openid\":\"O1\"\x7d );\n") 9
        (((lit "callback( \x7b\"openid\":\"O1\"\x7d );\n").length : Int) - 3) =
        some (lit " \x7b\"openid\":\"O1\"\x7d ") :=
  ⟨by decide, (strip_envelope_exact.1 (lit "callback( \x7b\"openid\":\"O1\"\x7d );\n")
    (by decide)).1.trans (by decide)⟩

/-- C10: the slice `b[9:len(b)-3]` is in range if and only if `b` has at least
twelve bytes.  On a body of at least twelve bytes `Auth` and `OpenID` return;
on a shorter one `OpenID` panics, and so does `Auth` when the body
form-decodes without error and without a non-empty `access_token`, as the empty
body does. -/
theorem strip_in_bounds_iff :
    (∀ b : Bytes, (slice b 9 ((b.length : Int) - 3)).isSome ↔ 12 ≤ b.length) ∧
    (∀ (w : World) (conn : Connect) (code b : Bytes),
      w.httpGet (lit "https://graph.qq.com/oauth2.0/token?" ++ (authParams conn code).Encode) =
        (some ⟨b, none⟩, none) → 12 ≤ b.length →
      ∃ r, (conn.Auth w code).outcome = Outcome.ret r) ∧
    (∀ (w : World) (conn : Connect) (token b : Bytes),
      (w.httpGet (lit "https://graph.qq.com/oauth2.0/me?access_token=" ++ token ++
        lit "&unionid=1")).1 = some ⟨b, none⟩ → 12 ≤ b.length →
      ∃ r, (conn.OpenID w token).outcome = Outcome.ret r) ∧
    (∀ (w : World) (conn : Connect) (code b : Bytes) (vals : Values),
      w.httpGet (lit "https://graph.qq.com/oauth2.0/token?" ++ (authParams conn code).Encode) =
        (some ⟨b, none⟩, none) → b.length < 12 →
      ParseQuery w.querySyntax b = (vals, none) → vals.Get (lit "access_token") = [] →
      (conn.Auth w code).outcome = Outcome.panic Panic.sliceBounds) ∧
    (∀ (w : World) (conn : Connect) (code : Bytes),
      w.httpGet (lit "https://graph.qq.com/oauth2.0/token?" ++ (authParams conn code).Encode) =
        (some ⟨[], none⟩, none) →
      (conn.Auth w code).outcome = Outcome.panic Panic.sliceBounds) ∧
    (∀ (w : World) (conn : Connect) (token b : Bytes),
      (w.httpGet (lit "https://graph.qq.com/oauth2.0/me?access_token=" ++ token ++
        lit "&unionid=1")).1 = some ⟨b, none⟩ → b.length < 12 →
      (conn.OpenID w token).outcome = Outcome.panic Panic.sliceBounds) := by
  have short : ∀ (w : World) (conn : Connect) (code b : Bytes) (vals : Values),
      w.httpGet (lit "https://graph.qq.com/oauth2.0/token?" ++ (authParams conn code).Encode) =
        (some ⟨b, none⟩, none) → b.length < 12 →
      ParseQuery w.querySyntax b = (vals, none) → vals.Get (lit "access_token") = [] →
      (conn.Auth w code).outcome = Outcome.panic Panic.sliceBounds := by
    intro w conn code b vals hget hlen hparse htok
    simp only [Connect.Auth, hget, hparse, htok, if_true, callbackDecoder_short _ b _ hlen]
  refine ⟨?_, ?_, ?_, short, ?_, ?_⟩
  · intro b
    by_cases h : 12 ≤ b.length
    · simp [slice_strip b h, h]
    · simp [slice_short b (by omega), h]
  · intro w conn code b hget hlen
    simp only [Connect.Auth, hget]
    split
    · exact ⟨_, rfl⟩
    · split
      · rw [callbackDecoder_long _ b _ hlen]
        cases (w.unmarshalErrMsg ((b.drop 9).take (b.length - 12)) errMsg.zero).2 <;>
          exact ⟨_, rfl⟩
      · exact ⟨_, rfl⟩
  · intro w conn token b hget hlen
    simp only [Connect.OpenID, hget, slice_strip b hlen, callbackDecoder_long _ b _ hlen]
    split
    · exact ⟨_, rfl⟩
    · split <;> exact ⟨_, rfl⟩
  · intro w conn code hget
    refine short w conn code [] Values.empty hget (by decide) ?_ (by decide)
    cases w.querySyntax <;> decide
  · intro w conn token b hget hlen
    simp only [Connect.OpenID, hget, slice_short b hlen]

/-- Witness of C10: an eleven-byte body, one byte short of the envelope. -/
theorem strip_in_bounds_iff_witness :
    (lit "callback();").length < 12 ∧
      ((New (lit "101") (lit "key") (lit "https://example.com/cb")).OpenID
          (goWorld QuerySyntax.semicolonRejected (answers (lit "callback();")))
          (lit "T0")).outcome = Outcome.panic Panic.sliceBounds ∧
      ((New (lit "101") (lit "key") (lit "https://example.com/cb")).Auth
          (goWorld QuerySyntax.semicolonSeparates (answers (lit "callback();")))
          (lit "c0de")).outcome = Outcome.panic Panic.sliceBounds :=
  ⟨by decide,
    strip_in_bounds_iff.2.2.2.2.2
      (goWorld QuerySyntax.semicolonRejected (answers (lit "callback();")))
      (New (lit "101") (lit "key") (lit "https://example.com/cb")) (lit "T0")
      (lit "callback();") rfl (by decide),
    strip_in_bounds_iff.2.2.2.1
      (goWorld QuerySyntax.semicolonSeparates (answers (lit "callback();")))
      (New (lit "101") (lit "key") (lit "https://example.com/cb")) (lit "c0de")
      (lit "callback();") ⟨[(lit "callback()", [[]])]⟩ rfl (by decide) (by decide) (by decide)⟩


end QQ
